import Mathlib

/-!
Verification of the job-orchestration core of the `ai_diffusion` plugin
(`src/ai_diffusion/model.py`).  The data model and operations below are a
shallow embedding of that file.  The `JobQueue` primitives (`find`,
`notify_started`, `notify_finished`, `notify_cancelled`, `set_results`,
`remove`, `any_executing`) live in `jobs.py`, which is not part of the
sources; those definitions are modelled from the specification's
description of the job-queue state machine and are marked as such.
Asynchronous side effects (logging, signal emission, layer insertion,
backend calls) are recorded as explicit trace/effect events so that call
order is part of the model.
-/

namespace AiDiffusion

/-- Job lifecycle states (spec section 4.3; `jobs.py` is not under the
sources, so the state set is modelled from the spec). -/
inductive JobState where
  | queued
  | running
  | finished
  | cancelled
deriving DecidableEq, Repr

/-- Job kinds, as enumerated in the spec's data model and used throughout
`model.py`. -/
inductive JobKind where
  | diffusion
  | live_preview
  | upscaling
  | control_layer
  | animation_frame
  | animation_batch
deriving DecidableEq, Repr

/-- Inpaint modes from `api.py` (not under the sources); the constructors
are those referenced by `model.py` and the spec (section 4.2). -/
inductive InpaintMode where
  | automatic
  | fill
  | expand
  | add_object
  | remove_object
  | replace_background
  | custom
deriving DecidableEq, Repr

/-- Inpaint context choices, from `class InpaintContext` in `model.py`. -/
inductive InpaintContext where
  | automatic
  | mask_bounds
  | entire_image
  | layer_bounds
deriving DecidableEq, Repr

/-- Integer rectangle in canvas coordinates (`image.py` is not under the
sources; modelled from the spec's Bounds description). -/
structure Bounds where
  x : Int
  y : Int
  width : Int
  height : Int
deriving DecidableEq, Repr

/-- Modelled from the spec: `Bounds.expand(a, include=b)` returns the
smallest rectangle containing both rectangles. -/
def Bounds.expand (b incl : Bounds) : Bounds :=
  let x := min b.x incl.x
  let y := min b.y incl.y
  let r := max (b.x + b.width) (incl.x + incl.width)
  let bo := max (b.y + b.height) (incl.y + incl.height)
  ⟨x, y, r - x, bo - y⟩

/-! ### Seed sequencing in `Model._generate`

The loop body of `Model._generate` is

    for i in range(count):
        job = self.jobs.add(job_kind, pos, neg, bounds, sampling.strength, sampling.seed)
        await self._enqueue_job(job, input)
        sampling.seed = sampling.seed + (i + 1) * settings.batch_size
        result.append(job)

so the seed passed to `jobs.add` for iteration `i` is the running value of
`sampling.seed`, which is advanced by `(i + 1) * batch_size` after each
iteration.  `generateSeeds S B i n` is the list of seeds assigned by the
remaining `n` iterations when the loop counter currently is `i` and
`sampling.seed` currently is `S`. -/
def generateSeeds (seed : Int) (B : Nat) (i : Nat) : Nat → List Int
  | 0 => []
  | n + 1 => seed :: generateSeeds (seed + (i + 1) * B) B (i + 1) n

/-- Triangular numbers: `tri i = 1 + 2 + ... + i`. -/
def tri : Nat → Nat
  | 0 => 0
  | n + 1 => tri n + (n + 1)

theorem tri_two_mul (i : Nat) : 2 * tri i = i * (i + 1) := by
  induction i with
  | zero => rfl
  | succ n ih => simp [tri, Nat.mul_add, ih]; ring

theorem tri_lt_tri (i j : Nat) (h : i < j) : tri i < tri j := by
  induction j with
  | zero => omega
  | succ n ih =>
    have hstep : tri n < tri (n + 1) := by simp [tri]
    rcases Nat.lt_succ_iff_lt_or_eq.mp h with h' | h'
    · exact Nat.lt_trans (ih h') hstep
    · subst h'; exact hstep

theorem generateSeeds_length (S : Int) (B i n : Nat) :
    (generateSeeds S B i n).length = n := by
  induction n generalizing S i with
  | zero => rfl
  | succ m ih => simp [generateSeeds, ih]

/-- The seed assigned at offset `k` of the loop started at counter `i` with
running seed `S` is `S` plus `B` times the sum `(i+1) + (i+2) + ... + (i+k)`,
that is `B * (tri (i + k) - tri i)`. -/
theorem generateSeeds_get (S : Int) (B i n k : Nat) (hk : k < n) :
    (generateSeeds S B i n).get? k =
      some (S + B * ((tri (i + k) : Int) - tri i)) := by
  induction n generalizing S i k with
  | zero => omega
  | succ m ih =>
    cases k with
    | zero => simp [generateSeeds]
    | succ l =>
      have hl : l < m := by omega
      rw [generateSeeds, List.get?_cons_succ, ih (S + (i + 1) * B) (i + 1) l hl]
      congr 1
      have htri : (tri (i + 1) : Int) = tri i + (i + 1) := by
        have heq : tri (i + 1) = tri i + (i + 1) := rfl
        rw [heq]; push_cast; ring
      have harg : i + 1 + l = i + (l + 1) := by omega
      rw [harg, htri]
      ring

/-- C1 (claim as stated, job index 2): the claim predicts seed `S + i*B`;
the code assigns `S + B * tri i`.  At `S = 0`, `B = 1`, batch size `N = 3`,
job 2 receives seed 3, not the claimed `0 + 2 * 1 = 2`. -/
theorem generate_seed_claim_counterexample :
    (generateSeeds 0 1 0 3).get? 2 = some 3 ∧
      (generateSeeds 0 1 0 3).get? 2 ≠ some ((0 : Int) + 2 * 1) := by
  constructor
  · rfl
  · decide

/-- C1 (amended): for a batch of `N` jobs started with fixed seed `S` and
batch-size constant `B`, job `i` is assigned seed `S + B * tri i` where
`2 * tri i = i * (i + 1)` (the increments accumulate), and when `B ≥ 1` no
two jobs of the batch share a seed. -/
theorem generate_seed_sequence (S : Int) (B N : Nat) :
    (∀ i, i < N →
      (generateSeeds S B 0 N).get? i = some (S + B * tri i) ∧
        2 * tri i = i * (i + 1)) ∧
    (1 ≤ B → ∀ i j, i < j → j < N →
      (generateSeeds S B 0 N).get? i ≠ (generateSeeds S B 0 N).get? j) := by
  have hget : ∀ i, i < N →
      (generateSeeds S B 0 N).get? i = some (S + B * tri i) := by
    intro i hi
    rw [generateSeeds_get S B 0 N i hi]
    simp [tri]
  constructor
  · intro i hi
    exact ⟨hget i hi, tri_two_mul i⟩
  · intro hB i j hij hj
    rw [hget i (Nat.lt_trans hij hj), hget j hj]
    intro hcontra
    have h1 : S + (B : Int) * tri i = S + B * tri j := by
      exact Option.some.inj hcontra
    have h2 : (tri i : Int) < tri j := by
      exact_mod_cast tri_lt_tri i j hij
    have hBpos : (0 : Int) < B := by exact_mod_cast hB
    nlinarith

/-- Witness for the amended C1 theorem at `S = 5`, `B = 2`, `N = 3`. -/
theorem generate_seed_sequence_witness :
    ((generateSeeds 5 2 0 3).get? 2 = some (5 + 2 * tri 2) ∧
      2 * tri 2 = 2 * (2 + 1)) ∧
    (generateSeeds 5 2 0 3).get? 1 ≠ (generateSeeds 5 2 0 3).get? 2 :=
  ⟨(generate_seed_sequence 5 2 3).1 2 (by decide),
    (generate_seed_sequence 5 2 3).2 (by decide) 1 2 (by decide) (by decide)⟩

/-! ### `get_selection_modifiers` (module-level function in `model.py`)

The settings `selection_grow`, `selection_feather`, `selection_padding`
(percent values from `settings.py`, not under the sources) are passed as
parameters; the function body mirrors the source line by line.  Python
floats are modelled as rationals. -/

structure SelectionModifiers where
  grow : ℚ
  feather : ℚ
  padding : ℚ
  invert : Bool
deriving DecidableEq, Repr

def get_selection_modifiers (inpaint_mode : InpaintMode)
    (selection_grow selection_feather selection_padding : ℚ) :
    SelectionModifiers :=
  let grow := selection_grow / 100
  let feather := selection_feather / 100
  let padding := selection_padding / 100
  let invert := false
  -- InpaintMode.remove_object: feather = min(feather, grow * 0.5)
  let feather := if inpaint_mode = InpaintMode.remove_object then
      min feather (grow * (1 / 2)) else feather
  -- InpaintMode.replace_background: grow/feather capped at 0.01, invert
  let grow' := if inpaint_mode = InpaintMode.replace_background then
      min grow (1 / 100) else grow
  let feather' := if inpaint_mode = InpaintMode.replace_background then
      min feather (1 / 100) else feather
  let invert' := if inpaint_mode = InpaintMode.replace_background then
      true else invert
  ⟨grow', feather', padding, invert'⟩

/-- C8: `get_selection_modifiers` is a pure function of the mode and the
configured grow/feather/padding settings.  For `remove_object` the feather
is capped at half the grow amount with `invert = false`; for
`replace_background` grow and feather are capped at `0.01` and
`invert = true`; every other mode passes the settings through unchanged
with `invert = false`. -/
theorem get_selection_modifiers_spec (sg sf sp : ℚ) :
    (get_selection_modifiers InpaintMode.remove_object sg sf sp =
      ⟨sg / 100, min (sf / 100) ((sg / 100) * (1 / 2)), sp / 100, false⟩) ∧
    (get_selection_modifiers InpaintMode.replace_background sg sf sp =
      ⟨min (sg / 100) (1 / 100), min (sf / 100) (1 / 100), sp / 100, true⟩) ∧
    (∀ m : InpaintMode, m ≠ InpaintMode.remove_object →
      m ≠ InpaintMode.replace_background →
      get_selection_modifiers m sg sf sp =
        ⟨sg / 100, sf / 100, sp / 100, false⟩) := by
  refine ⟨?_, ?_, ?_⟩
  · simp [get_selection_modifiers]
  · simp [get_selection_modifiers]
  · intro m h1 h2
    simp [get_selection_modifiers, h1, h2]

/-- Witness for C8 at concrete settings `grow = 4`, `feather = 6`,
`padding = 10` and mode `fill`. -/
theorem get_selection_modifiers_spec_witness :
    (get_selection_modifiers InpaintMode.remove_object 4 6 10 =
      ⟨4 / 100, min (6 / 100 : ℚ) ((4 / 100) * (1 / 2)), 10 / 100, false⟩) ∧
    get_selection_modifiers InpaintMode.fill 4 6 10 =
      ⟨4 / 100, 6 / 100, 10 / 100, false⟩ :=
  ⟨(get_selection_modifiers_spec 4 6 10).1,
    (get_selection_modifiers_spec 4 6 10).2.2 InpaintMode.fill
      (by decide) (by decide)⟩

/-! ### Jobs and the job queue

The `Job` record keeps the fields the orchestration logic reads; images
are identified by numeric ids.  `jobs.py` is not under the sources, so the
queue primitives are modelled from the spec (sections 3 and 4.3). -/

structure Job where
  id : Option String := none
  kind : JobKind
  state : JobState := JobState.queued
  results : List Nat := []
  seed : Int := 0
deriving DecidableEq, Repr

/-- Modelled from the spec: `JobQueue.find` looks a job up by its backend
id (jobs are identified by their unique backend-assigned id). -/
def JobQueue.find : List Job → String → Option Job
  | [], _ => none
  | j :: js, jid => if j.id = some jid then some j else JobQueue.find js jid

/-- Modelled from the spec: mutating the job found by id inside the queue
(backend ids are unique, so at most one job matches). -/
def updateJob : List Job → String → (Job → Job) → List Job
  | [], _, _ => []
  | j :: js, jid, f =>
      if j.id = some jid then f j :: updateJob js jid f
      else j :: updateJob js jid f

/-- Modelled from the spec: `JobQueue.remove` deletes the job (identified
by its unique backend id) from the queue. -/
def removeJob : List Job → String → List Job
  | [], _ => []
  | j :: js, jid =>
      if j.id = some jid then removeJob js jid else j :: removeJob js jid

/-- Modelled from the spec: `any_executing()` is true iff at least one job
has state `queued` or `running`. -/
def any_executing (jobs : List Job) : Bool :=
  jobs.any fun j =>
    decide (j.state = JobState.queued) || decide (j.state = JobState.running)

/-- Modelled from the spec: `set_results` stores the delivered images on
the job. -/
def setResultsJob (images : List Nat) (j : Job) : Job :=
  { j with results := images }

/-- Modelled from the spec: `notify_started` transitions `queued` to
`running` and is idempotent / a no-op in any other state. -/
def notifyStartedJob (j : Job) : Job :=
  if j.state = JobState.queued then { j with state := JobState.running } else j

/-- Modelled from the spec: `notify_finished` transitions `queued` or
`running` to `finished`; terminal states reject further transitions. -/
def notifyFinishedJob (j : Job) : Job :=
  match j.state with
  | JobState.queued => { j with state := JobState.finished }
  | JobState.running => { j with state := JobState.finished }
  | _ => j

/-- Modelled from the spec: `notify_cancelled` transitions `queued` or
`running` to `cancelled`; terminal states reject further transitions. -/
def notifyCancelledJob (j : Job) : Job :=
  match j.state with
  | JobState.queued => { j with state := JobState.cancelled }
  | JobState.running => { j with state := JobState.cancelled }
  | _ => j

/-! ### Live workspace (`class LiveWorkspace` in `model.py`)

Side effects (submitting a live generation, saving/recording frames,
importing the recorded animation) are recorded as `LiveEffect` events. -/

inductive LiveEffect where
  | generateLive
  | importAnimation
  | errorRecording
  | setResult
  | saveFrame
deriving DecidableEq, Repr

structure LiveState where
  is_active : Bool := false
  is_recording : Bool := false
  has_result : Bool := false
deriving DecidableEq, Repr

/-- `LiveWorkspace.toggle`, the setter of `is_active`.  The source line
`self.is_recording = False` in the turn-off branch runs the
`toggle_record` setter; that inner call is unfolded here: with
`active = False` it records `is_recording := False`, its own
`self.is_active = False` is a no-op (the flag was just cleared), and it
triggers `_import_animation` when a recording was in progress. -/
def toggle (ls : LiveState) (active : Bool) : LiveState × List LiveEffect :=
  if ls.is_active ≠ active then
    if active then ({ ls with is_active := true }, [LiveEffect.generateLive])
    else if ls.is_recording then
      ({ ls with is_active := false, is_recording := false },
        [LiveEffect.importAnimation])
    else ({ ls with is_active := false }, [])
  else (ls, [])

/-- `LiveWorkspace.set_result`: stores the image, emits availability, and
saves a recording frame when recording is on. -/
def set_result (ls : LiveState) : LiveState × List LiveEffect :=
  ({ ls with has_result := true },
    if ls.is_recording then [LiveEffect.setResult, LiveEffect.saveFrame]
    else [LiveEffect.setResult])

/-- `LiveWorkspace.handle_job_finished`: for a `live_preview` job, store
the first result when present, recompute `is_active` from the document's
activity (through the `toggle` setter), and re-trigger a live generation
when still active. -/
def live_handle_job_finished (ls : LiveState) (docActive : Bool) (job : Job) :
    LiveState × List LiveEffect :=
  if job.kind = JobKind.live_preview then
    let r1 := if job.results ≠ [] then set_result ls else (ls, [])
    let r2 := toggle r1.1 (r1.1.is_active && docActive)
    if r2.1.is_active then (r2.1, r1.2 ++ r2.2 ++ [LiveEffect.generateLive])
    else (r2.1, r1.2 ++ r2.2)
  else (ls, [])

/-! ### Model state and `Model.report_error` -/

structure ModelState where
  jobs : List Job := []
  progress : ℚ := 0
  error : String := ""
  live : LiveState := {}
  autoPreview : Bool := true
  hasPreviewLayer : Bool := false
  selection : Option (String × Nat) := none
deriving DecidableEq, Repr

/-- `Model.report_error`: sets the user-visible error field and then sets
`self.live.is_active = False`, which runs the `toggle` setter. -/
def report_error (s : ModelState) (message : String) :
    ModelState × List LiveEffect :=
  let r := toggle s.live false
  ({ s with error := message, live := r.1 }, r.2)

/-- C9: `report_error` sets the error field, deactivates the live
workspace through the `toggle` setter (which also stops an in-progress
recording), and afterwards a finishing live job no longer re-triggers a
live generation.  The hypothesis is the reachable-state invariant that
recording is only ever on while the live loop is active (recording is
started via `toggle_record`, which also sets `is_active`). -/
theorem report_error_stops_live (s : ModelState) (m : String)
    (hinv : s.live.is_recording = true → s.live.is_active = true) :
    (report_error s m).1.error = m ∧
    (report_error s m).1.live.is_active = false ∧
    (report_error s m).1.live.is_recording = false ∧
    (∀ job docActive, ∀ e ∈ (live_handle_job_finished
        (report_error s m).1.live docActive job).2,
      e ≠ LiveEffect.generateLive) := by
  have hlive : (report_error s m).1.live.is_active = false ∧
      (report_error s m).1.live.is_recording = false := by
    simp only [report_error, toggle]
    cases ha : s.live.is_active with
    | false =>
      have hr : s.live.is_recording = false := by
        cases hrec : s.live.is_recording with
        | false => rfl
        | true => exact absurd (hinv hrec) (by simp [ha])
      simp [ha, hr]
    | true =>
      cases hrec : s.live.is_recording <;> simp [ha, hrec]
  refine ⟨rfl, hlive.1, hlive.2, ?_⟩
  intro job docActive e he
  rw [live_handle_job_finished] at he
  by_cases hk : job.kind = JobKind.live_preview
  · simp only [hk, if_pos rfl] at he
    by_cases hres : job.results ≠ [] <;>
      simp only [hres, if_pos, if_neg, ite_not] at he <;>
      simp only [set_result, toggle, hlive.1] at he <;>
      [skip; skip] <;>
      · revert he
        cases hd : docActive <;>
          cases hrec2 : (report_error s m).1.live.is_recording <;>
          simp [hlive.1, hd, hrec2, set_result] <;>
          intro h1 <;> simp_all
  · simp [hk] at he

/-- Witness for C9: a state with the live loop active and recording. -/
theorem report_error_stops_live_witness :
    ((report_error { live := { is_active := true, is_recording := true } }
        "boom").1.error = "boom" ∧
      (report_error { live := { is_active := true, is_recording := true } }
        "boom").1.live.is_active = false ∧
      (report_error { live := { is_active := true, is_recording := true } }
        "boom").1.live.is_recording = false ∧
      ∀ job docActive, ∀ e ∈ (live_handle_job_finished
          (report_error { live := { is_active := true, is_recording := true } }
            "boom").1.live docActive job).2,
        e ≠ LiveEffect.generateLive) :=
  report_error_stops_live
    { live := { is_active := true, is_recording := true } } "boom"
    (by intro h; rfl)

/-- C10: when a `live_preview` job finishes while the live flag is set and
the document is still active, another live generation is triggered — also
when the job had zero results, in which case only the result storage (and
any frame recording) is skipped and the re-trigger is the sole effect. -/
theorem live_loop_retriggers (ls : LiveState) (job : Job)
    (hk : job.kind = JobKind.live_preview) (ha : ls.is_active = true) :
    LiveEffect.generateLive ∈ (live_handle_job_finished ls true job).2 ∧
    (job.results = [] →
      (live_handle_job_finished ls true job).2 = [LiveEffect.generateLive]) ∧
    (job.results ≠ [] →
      LiveEffect.setResult ∈ (live_handle_job_finished ls true job).2) := by
  by_cases hres : job.results = [] <;>
    simp [live_handle_job_finished, hk, hres, set_result, toggle, ha] <;>
    cases hrec : ls.is_recording <;> simp

/-- Witness for C10: an active live state and a zero-result
`live_preview` job. -/
theorem live_loop_retriggers_witness :
    LiveEffect.generateLive ∈
      (live_handle_job_finished { is_active := true } true
        { kind := JobKind.live_preview }).2 ∧
    (({ kind := JobKind.live_preview } : Job).results = [] →
      (live_handle_job_finished { is_active := true } true
        { kind := JobKind.live_preview }).2 = [LiveEffect.generateLive]) ∧
    (({ kind := JobKind.live_preview } : Job).results ≠ [] →
      LiveEffect.setResult ∈
        (live_handle_job_finished { is_active := true } true
          { kind := JobKind.live_preview }).2) :=
  live_loop_retriggers { is_active := true } { kind := JobKind.live_preview }
    rfl rfl

/-! ### `Model.handle_message`

Backend messages and the message handler.  Each call into the job queue or
the document is recorded as a `TraceEvent`, carrying the job value passed
to (or produced for) observers at that point, so call order is part of the
model. -/

inductive ClientEvent where
  | progress
  | finished
  | interrupted
  | error
deriving DecidableEq, Repr

structure ClientMessage where
  event : ClientEvent
  job_id : String
  images : List Nat := []
  progress : ℚ := 0
  error : String := ""
deriving DecidableEq, Repr

inductive TraceEvent where
  | logUnknown
  | started (j : Job)
  | finished (j : Job)
  | cancelled (j : Job)
  | resultsSet (j : Job)
  | removed (j : Job)
  | controlLayerAdded (j : Job)
  | upscaleLayerAdded (j : Job)
  | selected (jid : String) (index : Nat)
deriving DecidableEq, Repr

/-- Python truthiness of `job.id` (`None` and the empty string are
falsy). -/
def idTruthy : Option String → Bool
  | some s => !s.isEmpty
  | none => false

/-- The `ClientEvent.finished` branch of `Model.handle_message`, in source
order: store results when images were delivered, run the kind-specific
layer insertion (`control_layer` / `upscaling`), set progress to 1, call
`notify_finished`, then remove non-`diffusion` jobs, or auto-select the
first result for a `diffusion` job when auto-preview is on and no preview
layer exists. -/
def handleFinished (s : ModelState) (msg : ClientMessage) (job : Job) :
    ModelState × List TraceEvent :=
  let hasImages := !msg.images.isEmpty
  let j1 := if hasImages then setResultsJob msg.images job else job
  let jobs1 := if hasImages then
      updateJob s.jobs msg.job_id (setResultsJob msg.images) else s.jobs
  let t1 : List TraceEvent :=
    if hasImages then [TraceEvent.resultsSet j1] else []
  let t2 : List TraceEvent :=
    if j1.kind = JobKind.control_layer then [TraceEvent.controlLayerAdded j1]
    else if j1.kind = JobKind.upscaling then [TraceEvent.upscaleLayerAdded j1]
    else []
  let j2 := notifyFinishedJob j1
  let jobs2 := updateJob jobs1 msg.job_id notifyFinishedJob
  let s2 := { s with jobs := jobs2, progress := 1 }
  if j1.kind ≠ JobKind.diffusion then
    ({ s2 with jobs := removeJob jobs2 msg.job_id },
      t1 ++ t2 ++ [TraceEvent.finished j2, TraceEvent.removed j2])
  else if s.autoPreview && !s.hasPreviewLayer && idTruthy j1.id then
    ({ s2 with selection := some (msg.job_id, 0) },
      t1 ++ t2 ++ [TraceEvent.finished j2, TraceEvent.selected msg.job_id 0])
  else (s2, t1 ++ t2 ++ [TraceEvent.finished j2])

/-- `Model.handle_message`: look the job up by the message's job id; an
unknown id is logged and dropped.  Otherwise dispatch on the event kind
exactly as the source does. -/
def handle_message (s : ModelState) (msg : ClientMessage) :
    ModelState × List TraceEvent :=
  match JobQueue.find s.jobs msg.job_id with
  | none => (s, [TraceEvent.logUnknown])
  | some job =>
    match msg.event with
    | ClientEvent.progress =>
        ({ s with
            jobs := updateJob s.jobs msg.job_id notifyStartedJob
            progress := msg.progress },
          [TraceEvent.started (notifyStartedJob job)])
    | ClientEvent.finished => handleFinished s msg job
    | ClientEvent.interrupted =>
        ({ s with
            jobs := updateJob s.jobs msg.job_id notifyCancelledJob
            progress := 0 },
          [TraceEvent.cancelled (notifyCancelledJob job)])
    | ClientEvent.error =>
        ((report_error
            { s with jobs := updateJob s.jobs msg.job_id notifyCancelledJob }
            ("Server execution error: " ++ msg.error)).1,
          [TraceEvent.cancelled (notifyCancelledJob job)])

/-- C3: a message whose job id is not in the queue is logged and dropped;
the model state (queue, progress, error field, everything) is unchanged
and, the handler being a total function, no exception is raised. -/
theorem handle_message_unknown_id (s : ModelState) (msg : ClientMessage)
    (h : JobQueue.find s.jobs msg.job_id = none) :
    handle_message s msg = (s, [TraceEvent.logUnknown]) := by
  rw [handle_message, h]

/-- Witness for C3: an empty queue and a progress message. -/
theorem handle_message_unknown_id_witness :
    handle_message { jobs := [] }
        { event := ClientEvent.progress, job_id := "j1" } =
      ({ jobs := [] }, [TraceEvent.logUnknown]) :=
  handle_message_unknown_id { jobs := [] }
    { event := ClientEvent.progress, job_id := "j1" } rfl

/-- C2: for a finished message carrying images, whose job is found in the
queue in a non-terminal state (per the spec's transport ordering, the
terminal message for a job arrives once), the handler's trace sets the
results before emitting the finished notification, and the job value the
finished notification carries already holds the delivered images with
state `finished`. -/
theorem finished_sets_results_before_notify (s : ModelState)
    (msg : ClientMessage) (job : Job) (he : msg.event = ClientEvent.finished)
    (hf : JobQueue.find s.jobs msg.job_id = some job)
    (hi : msg.images ≠ [])
    (hst : job.state = JobState.queued ∨ job.state = JobState.running) :
    ∃ t₁ t₂,
      (handle_message s msg).2 =
        t₁ ++ TraceEvent.finished
            (notifyFinishedJob (setResultsJob msg.images job)) :: t₂ ∧
      TraceEvent.resultsSet (setResultsJob msg.images job) ∈ t₁ ∧
      (notifyFinishedJob (setResultsJob msg.images job)).results =
        msg.images ∧
      (notifyFinishedJob (setResultsJob msg.images job)).state =
        JobState.finished := by
  have himg : (!msg.images.isEmpty) = true := by
    cases hmi : msg.images with
    | nil => exact absurd hmi hi
    | cons a l => rfl
  have hres : (notifyFinishedJob (setResultsJob msg.images job)).results =
      msg.images := by
    rcases hst with hst | hst <;>
      simp [notifyFinishedJob, setResultsJob, hst]
  have hfin : (notifyFinishedJob (setResultsJob msg.images job)).state =
      JobState.finished := by
    rcases hst with hst | hst <;>
      simp [notifyFinishedJob, setResultsJob, hst]
  simp only [handle_message, hf, he]
  simp only [handleFinished, himg, if_pos, Bool.true_eq, if_true]
  set j1 := setResultsJob msg.images job with hj1
  set tk : List TraceEvent :=
    if j1.kind = JobKind.control_layer then [TraceEvent.controlLayerAdded j1]
    else if j1.kind = JobKind.upscaling then [TraceEvent.upscaleLayerAdded j1]
    else [] with htk
  by_cases hd : j1.kind ≠ JobKind.diffusion
  · refine ⟨[TraceEvent.resultsSet j1] ++ tk,
      [TraceEvent.removed (notifyFinishedJob j1)], ?_, by simp, hres, hfin⟩
    simp [hd]
  · by_cases hsel : (s.autoPreview && !s.hasPreviewLayer && idTruthy j1.id)
        = true
    · refine ⟨[TraceEvent.resultsSet j1] ++ tk,
        [TraceEvent.selected msg.job_id 0], ?_, by simp, hres, hfin⟩
      simp [hd, hsel]
    · refine ⟨[TraceEvent.resultsSet j1] ++ tk, [], ?_, by simp, hres, hfin⟩
      simp [hd, hsel]

/-- Witness for C2: a queued diffusion job receiving a finished message
with one image. -/
theorem finished_sets_results_before_notify_witness :
    ∃ t₁ t₂,
      (handle_message
          { jobs := [{ id := some "j1", kind := JobKind.diffusion }] }
          { event := ClientEvent.finished, job_id := "j1",
            images := [7] }).2 =
        t₁ ++ TraceEvent.finished
            (notifyFinishedJob (setResultsJob [7]
              { id := some "j1", kind := JobKind.diffusion })) :: t₂ ∧
      TraceEvent.resultsSet (setResultsJob [7]
          { id := some "j1", kind := JobKind.diffusion }) ∈ t₁ ∧
      (notifyFinishedJob (setResultsJob [7]
          { id := some "j1", kind := JobKind.diffusion })).results = [7] ∧
      (notifyFinishedJob (setResultsJob [7]
          { id := some "j1", kind := JobKind.diffusion })).state =
        JobState.finished :=
  finished_sets_results_before_notify
    { jobs := [{ id := some "j1", kind := JobKind.diffusion }] }
    { event := ClientEvent.finished, job_id := "j1", images := [7] }
    { id := some "j1", kind := JobKind.diffusion }
    rfl rfl (by decide) (Or.inl rfl)

theorem find_removeJob (l : List Job) (jid : String) :
    JobQueue.find (removeJob l jid) jid = none := by
  induction l with
  | nil => rfl
  | cons j js ih =>
    rw [removeJob]
    by_cases h : j.id = some jid
    · simp only [if_pos h]; exact ih
    · rw [if_neg h, JobQueue.find, if_neg h]; exact ih

theorem find_updateJob (l : List Job) (jid : String) (f : Job → Job) (j : Job)
    (hid : ∀ x, (f x).id = x.id) (h : JobQueue.find l jid = some j) :
    JobQueue.find (updateJob l jid f) jid = some (f j) := by
  induction l with
  | nil => simp [JobQueue.find] at h
  | cons a as ih =>
    rw [JobQueue.find] at h
    rw [updateJob]
    by_cases ha : a.id = some jid
    · rw [if_pos ha] at h
      rw [if_pos ha, JobQueue.find, if_pos (by rw [hid a]; exact ha)]
      exact congrArg (some ∘ f) (Option.some.inj h)
    · rw [if_neg ha] at h
      rw [if_neg ha, JobQueue.find, if_neg ha]
      exact ih h

theorem setResultsJob_id (images : List Nat) (x : Job) :
    (setResultsJob images x).id = x.id := rfl

theorem notifyFinishedJob_id (x : Job) : (notifyFinishedJob x).id = x.id := by
  cases hx : x.state <;> simp [notifyFinishedJob, hx]

/-- C6: on a finished message, a job whose kind is not `diffusion` is
removed from the queue immediately after the finished notification (the
trace ends with the finished event directly followed by the removal, and
the job id no longer resolves in the queue); a `diffusion` job is never
removed by the finished handler (no removal event occurs and the job is
still found, finished, in the queue). -/
theorem finished_removes_non_diffusion (s : ModelState) (msg : ClientMessage)
    (job : Job) (he : msg.event = ClientEvent.finished)
    (hf : JobQueue.find s.jobs msg.job_id = some job) :
    (job.kind ≠ JobKind.diffusion →
      (∃ t, (handle_message s msg).2 =
        t ++ [TraceEvent.finished (notifyFinishedJob
                (if msg.images.isEmpty then job
                 else setResultsJob msg.images job)),
              TraceEvent.removed (notifyFinishedJob
                (if msg.images.isEmpty then job
                 else setResultsJob msg.images job))]) ∧
      JobQueue.find (handle_message s msg).1.jobs msg.job_id = none) ∧
    (job.kind = JobKind.diffusion →
      (∀ j, TraceEvent.removed j ∉ (handle_message s msg).2) ∧
      JobQueue.find (handle_message s msg).1.jobs msg.job_id =
        some (notifyFinishedJob
          (if msg.images.isEmpty then job
           else setResultsJob msg.images job))) := by
  constructor
  · intro hk
    cases hmi : msg.images.isEmpty with
    | true =>
      have hk1 : ¬ job.kind = JobKind.diffusion := hk
      constructor
      · refine ⟨(if job.kind = JobKind.control_layer then
            [TraceEvent.controlLayerAdded job]
          else if job.kind = JobKind.upscaling then
            [TraceEvent.upscaleLayerAdded job] else []), ?_⟩
        simp [handle_message, hf, he, handleFinished, hmi, hk1]
      · simp only [handle_message, hf, he, handleFinished, hmi]
        simp [hk1, find_removeJob]
    | false =>
      have hk1 : ¬ (setResultsJob msg.images job).kind = JobKind.diffusion :=
        hk
      constructor
      · refine ⟨TraceEvent.resultsSet (setResultsJob msg.images job) ::
          (if (setResultsJob msg.images job).kind = JobKind.control_layer then
            [TraceEvent.controlLayerAdded (setResultsJob msg.images job)]
          else if (setResultsJob msg.images job).kind = JobKind.upscaling then
            [TraceEvent.upscaleLayerAdded (setResultsJob msg.images job)]
          else []), ?_⟩
        simp [handle_message, hf, he, handleFinished, hmi, hk1]
      · simp only [handle_message, hf, he, handleFinished, hmi]
        simp [hk1, find_removeJob]
  · intro hk
    have hsr : (setResultsJob msg.images job).kind = JobKind.diffusion := hk
    cases hmi : msg.images.isEmpty with
    | true =>
      have hfound :
          JobQueue.find (updateJob s.jobs msg.job_id notifyFinishedJob)
            msg.job_id = some (notifyFinishedJob job) :=
        find_updateJob s.jobs msg.job_id notifyFinishedJob job
          notifyFinishedJob_id hf
      constructor
      · intro j
        by_cases hsel : (s.autoPreview && !s.hasPreviewLayer
            && idTruthy job.id) = true <;>
          simp [handle_message, hf, he, handleFinished, hmi, hk, hsel]
      · by_cases hsel : (s.autoPreview && !s.hasPreviewLayer
            && idTruthy job.id) = true <;>
          simp [handle_message, hf, he, handleFinished, hmi, hk, hsel,
            hfound]
    | false =>
      have hfound1 :
          JobQueue.find (updateJob s.jobs msg.job_id
              (setResultsJob msg.images)) msg.job_id =
            some (setResultsJob msg.images job) :=
        find_updateJob s.jobs msg.job_id (setResultsJob msg.images) job
          (setResultsJob_id msg.images) hf
      have hfound :
          JobQueue.find (updateJob (updateJob s.jobs msg.job_id
              (setResultsJob msg.images)) msg.job_id notifyFinishedJob)
            msg.job_id =
            some (notifyFinishedJob (setResultsJob msg.images job)) :=
        find_updateJob _ msg.job_id notifyFinishedJob _
          notifyFinishedJob_id hfound1
      constructor
      · intro j
        by_cases hsel : (s.autoPreview && !s.hasPreviewLayer
            && idTruthy (setResultsJob msg.images job).id) = true <;>
          simp [handle_message, hf, he, handleFinished, hmi, hsr, hsel]
      · by_cases hsel : (s.autoPreview && !s.hasPreviewLayer
            && idTruthy (setResultsJob msg.images job).id) = true <;>
          simp [handle_message, hf, he, handleFinished, hmi, hsr, hsel,
            hfound]

/-- Witness for C6: a queued `upscaling` job finishing with one image. -/
theorem finished_removes_non_diffusion_witness :
    ((∃ t, (handle_message
          { jobs := [{ id := some "u1", kind := JobKind.upscaling }] }
          { event := ClientEvent.finished, job_id := "u1",
            images := [3] }).2 =
        t ++ [TraceEvent.finished (notifyFinishedJob
                (if ([3] : List Nat).isEmpty then
                  { id := some "u1", kind := JobKind.upscaling }
                 else setResultsJob [3]
                  { id := some "u1", kind := JobKind.upscaling })),
              TraceEvent.removed (notifyFinishedJob
                (if ([3] : List Nat).isEmpty then
                  { id := some "u1", kind := JobKind.upscaling }
                 else setResultsJob [3]
                  { id := some "u1", kind := JobKind.upscaling }))]) ∧
      JobQueue.find (handle_message
          { jobs := [{ id := some "u1", kind := JobKind.upscaling }] }
          { event := ClientEvent.finished, job_id := "u1",
            images := [3] }).1.jobs "u1" = none) :=
  (finished_removes_non_diffusion
    { jobs := [{ id := some "u1", kind := JobKind.upscaling }] }
    { event := ClientEvent.finished, job_id := "u1", images := [3] }
    { id := some "u1", kind := JobKind.upscaling }
    rfl rfl).1 (by decide)

/-! ### Burst creation: `Model._generate` + `Model._enqueue_job`

The loop of `Model._generate` first calls `jobs.add` (which, per the
spec's data model, appends the new job to the queue in state `queued`) and
then awaits `Model._enqueue_job`, which resets the progress value when
`jobs.any_executing()` is false and stores the backend-assigned id on the
job.  The backend ids are supplied in `ids`; since `any_executing` does
not read ids, the id is attached at append time.  `i` is the loop counter
and the last argument the number of remaining iterations. -/
def modelGenerateAux (kind : JobKind) (B : Nat) :
    ModelState → Int → List String → Nat → Nat → ModelState
  | s, _, _, _, 0 => s
  | s, seed, ids, i, n + 1 =>
    let job : Job :=
      { id := ids.head?
        kind := kind
        state := JobState.queued
        results := []
        seed := seed }
    let s1 := { s with jobs := s.jobs ++ [job] }
    let s2 := if any_executing s1.jobs then s1 else { s1 with progress := 0 }
    modelGenerateAux kind B s2 (seed + (i + 1) * B) ids.tail (i + 1) n

/-- Fidelity of the seed sequence: the jobs a burst appends to the queue
carry exactly the seeds described by `generateSeeds`. -/
theorem modelGenerateAux_seeds (kind : JobKind) (B : Nat) :
    ∀ n s seed ids i,
      (modelGenerateAux kind B s seed ids i n).jobs.map Job.seed =
        s.jobs.map Job.seed ++ generateSeeds seed B i n := by
  intro n
  induction n with
  | zero => intro s seed ids i; simp [modelGenerateAux, generateSeeds]
  | succ m ih =>
    intro s seed ids i
    rw [modelGenerateAux]
    have hexec : any_executing (s.jobs ++
        [{ id := ids.head?
           kind := kind
           state := JobState.queued
           results := []
           seed := seed }]) = true := by
      simp [any_executing]
    simp only [hexec, if_pos, if_true]
    rw [ih]
    simp [generateSeeds]

/-- C4 (counterexample): starting a burst of one job on an idle model
(empty queue, so no job is queued or running) with progress `1/2` leaves
progress at `1/2`: the reset check in `_enqueue_job` runs after `jobs.add`
already appended the burst's first job in state `queued`, so
`any_executing` is true and the claimed reset to 0 does not happen. -/
theorem burst_progress_counterexample :
    any_executing ({ jobs := [], progress := 1/2 } : ModelState).jobs =
      false ∧
    (modelGenerateAux JobKind.diffusion 1
        { jobs := [], progress := 1/2 } 0 ["a"] 0 1).progress = 1/2 ∧
    ((1 : ℚ)/2) ≠ 0 := by
  refine ⟨rfl, by simp [modelGenerateAux, any_executing], by norm_num⟩

/-- C4 (amended): the progress reset in `_enqueue_job` fires only when no
job in the queue is queued or running at the moment of the check; because
`jobs.add` has already inserted the job being enqueued in state `queued`,
the condition never holds during a burst, and starting a burst leaves the
progress value unchanged. -/
theorem burst_progress_unchanged (kind : JobKind) (B : Nat) :
    ∀ n s seed ids i,
      (modelGenerateAux kind B s seed ids i n).progress = s.progress := by
  intro n
  induction n with
  | zero => intro s seed ids i; rfl
  | succ m ih =>
    intro s seed ids i
    rw [modelGenerateAux]
    have hexec : any_executing (s.jobs ++
        [{ id := ids.head?
           kind := kind
           state := JobState.queued
           results := []
           seed := seed }]) = true := by
      simp [any_executing]
    simp only [hexec, if_pos, if_true]
    rw [ih]

/-! ### `CustomInpaint.get_context` -/

structure CustomInpaintState where
  mode : InpaintMode
  context : InpaintContext
  context_layer_id : String
deriving DecidableEq, Repr

/-- Lookup of `model.layers.find(self.context_layer_id)`, yielding the
found layer's bounds; layers are identified by unique ids. -/
def layersFind : List (String × Bounds) → String → Option Bounds
  | [], _ => none
  | (lid, b) :: ls, target =>
      if lid = target then some b else layersFind ls target

/-- `CustomInpaint.get_context`: no mask or a non-custom mode yields no
override; `mask_bounds` returns the mask bounds; `entire_image` the full
canvas; `layer_bounds` the referenced layer's bounds expanded to include
the mask — or no override when the layer is missing; the `automatic`
context falls through to no override. -/
def get_context (ci : CustomInpaintState) (docExtent : Int × Int)
    (layers : List (String × Bounds)) (mask : Option Bounds) :
    Option Bounds :=
  match mask with
  | none => none
  | some mb =>
    if ci.mode ≠ InpaintMode.custom then none
    else if ci.context = InpaintContext.mask_bounds then some mb
    else if ci.context = InpaintContext.entire_image then
      some ⟨0, 0, docExtent.1, docExtent.2⟩
    else if ci.context = InpaintContext.layer_bounds then
      match layersFind layers ci.context_layer_id with
      | some lb => some (Bounds.expand lb mb)
      | none => none
    else none

/-- C7: with mode `custom` and context `layer_bounds`, a missing or
deleted reference layer yields no context override (`none`, so the default
region-resolver output is used); `get_context` is a total function, so no
error is raised. -/
theorem get_context_missing_layer (ci : CustomInpaintState)
    (docExtent : Int × Int) (layers : List (String × Bounds)) (mb : Bounds)
    (hm : ci.mode = InpaintMode.custom)
    (hc : ci.context = InpaintContext.layer_bounds)
    (hl : layersFind layers ci.context_layer_id = none) :
    get_context ci docExtent layers (some mb) = none := by
  simp [get_context, hm, hc, hl]

/-- Witness for C7: a custom-inpaint setup whose context layer id resolves
to no layer. -/
theorem get_context_missing_layer_witness :
    get_context
      { mode := InpaintMode.custom, context := InpaintContext.layer_bounds,
        context_layer_id := "gone" }
      (1024, 1024) [("other", ⟨0, 0, 10, 10⟩)] (some ⟨2, 2, 4, 4⟩) =
      none :=
  get_context_missing_layer
    { mode := InpaintMode.custom, context := InpaintContext.layer_bounds,
      context_layer_id := "gone" }
    (1024, 1024) [("other", ⟨0, 0, 10, 10⟩)] ⟨2, 2, 4, 4⟩
    rfl rfl (by decide)

/-! ### `AnimationWorkspace.handle_job_finished` (batch branch)

The per-`animation_id` dictionary `self._keyframes` is an association
list; an `AnimJob` carries the fields of `job.params.frame` (frame index
and the end of the range) that the handler reads, together with the
results and the `animation_id`. -/

structure AnimJob where
  frame : Nat
  endFrame : Nat
  results : List Nat
  animation_id : String
deriving DecidableEq, Repr

def frameFilename (frame : Nat) : String :=
  "frame-" ++ toString frame ++ ".png"

def lookupKeyframes : List (String × List String) → String →
    Option (List String)
  | [], _ => none
  | (k, v) :: rest, aid =>
      if k = aid then some v else lookupKeyframes rest aid

def setKeyframes : List (String × List String) → String → List String →
    List (String × List String)
  | [], aid, kf => [(aid, kf)]
  | (k, v) :: rest, aid, kf =>
      if k = aid then (aid, kf) :: rest
      else (k, v) :: setKeyframes rest aid kf

def eraseKeyframes : List (String × List String) → String →
    List (String × List String)
  | [], _ => []
  | (k, v) :: rest, aid =>
      if k = aid then rest else (k, v) :: eraseKeyframes rest aid

/-- One step of the `animation_batch` branch: a job with results saves its
first image under `frame-<n>.png` and appends the path; a job with zero
results (cache hit) re-appends the previously collected path when one
exists; when the job's frame is the terminal frame of the range the
collected sequence is imported and the record for the `animation_id` is
discarded. -/
def anim_handle_job_finished (st : List (String × List String))
    (j : AnimJob) : List (String × List String) × Option (List String) :=
  let kf := (lookupKeyframes st j.animation_id).getD []
  let kf2 :=
    if ¬ j.results.isEmpty then kf ++ [frameFilename j.frame]
    else if kf.length > 0 then kf ++ [kf.getLast?.getD ""]
    else kf
  if j.frame = j.endFrame then (eraseKeyframes st j.animation_id, some kf2)
  else (setKeyframes st j.animation_id kf2, none)

theorem lookup_setKeyframes (st : List (String × List String))
    (aid : String) (kf : List String) :
    lookupKeyframes (setKeyframes st aid kf) aid = some kf := by
  induction st with
  | nil => simp [setKeyframes, lookupKeyframes]
  | cons p rest ih =>
    obtain ⟨k, v⟩ := p
    rw [setKeyframes]
    by_cases h : k = aid
    · rw [if_pos h, lookupKeyframes, if_pos rfl]
    · rw [if_neg h, lookupKeyframes, if_neg h]
      exact ih

/-- The scenario of spec section 8: frames 0..3 of one animation batch,
where frame 2 completes with zero results (cache hit) and the others with
one image each; the last step imports the collected sequence. -/
def animScenario : List (String × List String) × Option (List String) :=
  let r1 := anim_handle_job_finished [] ⟨0, 3, [10], "a"⟩
  let r2 := anim_handle_job_finished r1.1 ⟨1, 3, [11], "a"⟩
  let r3 := anim_handle_job_finished r2.1 ⟨2, 3, [], "a"⟩
  anim_handle_job_finished r3.1 ⟨3, 3, [12], "a"⟩

/-- C5: a batch job finishing with zero results re-appends the previously
collected frame path in its place, so the collated sequence for its
`animation_id` has one entry per generated frame with no gaps; in the
section-8 scenario (frames 0..3 with frame 2 a cache hit) the imported
sequence has length 4 and its frame-2 entry equals frame 1's saved
file. -/
theorem anim_cache_hit_reuses_frame :
    (∀ st (j : AnimJob) last,
      j.results = [] → j.frame ≠ j.endFrame →
      ((lookupKeyframes st j.animation_id).getD []).getLast? = some last →
      lookupKeyframes (anim_handle_job_finished st j).1 j.animation_id =
        some ((lookupKeyframes st j.animation_id).getD [] ++ [last])) ∧
    (animScenario.2 =
        some ["frame-0.png", "frame-1.png", "frame-1.png", "frame-3.png"] ∧
      (animScenario.2.getD []).length = 4 ∧
      (animScenario.2.getD []).get? 2 = (animScenario.2.getD []).get? 1) := by
  constructor
  · intro st j last hres hfr hlast
    have hne : (lookupKeyframes st j.animation_id).getD [] ≠ [] := by
      intro hnil
      rw [hnil] at hlast
      exact Option.noConfusion hlast
    have hlen : ((lookupKeyframes st j.animation_id).getD []).length > 0 :=
      List.length_pos.mpr hne
    rw [anim_handle_job_finished]
    simp only [hres, List.isEmpty_nil, not_true, if_neg, if_pos, hlen,
      hlast, Option.getD_some, if_neg hfr]
    simp only [ite_false, ite_true, not_true_eq_false]
    exact lookup_setKeyframes st j.animation_id _
  · refine ⟨rfl, rfl, rfl⟩

/-- Witness for C5: one collected frame followed by a cache-hit job. -/
theorem anim_cache_hit_reuses_frame_witness :
    lookupKeyframes
        (anim_handle_job_finished [("a", ["frame-0.png"])]
          ⟨1, 3, [], "a"⟩).1 "a" =
      some ((lookupKeyframes [("a", ["frame-0.png"])] "a").getD [] ++
        ["frame-0.png"]) :=
  anim_cache_hit_reuses_frame.1 [("a", ["frame-0.png"])] ⟨1, 3, [], "a"⟩
    "frame-0.png" rfl (by decide) rfl

end AiDiffusion
